import Mathlib

/-!
Shallow embedding of the auto-blog scheduling backend
(`app/api/schedules.py`, `app/api/public.py`, `app/api/topics.py`).

Time is modelled as minutes since an epoch (`Nat`). The database is modelled
as an explicit list of rows; each endpoint core becomes a pure function from
the incoming request data and the current database state to the response and
the new state. Fallible steps (the per-schedule commit inside the bulk
trigger loop) are modelled by an explicit success oracle.
-/

namespace AutoBlog

/-- Schedule interval enum (`ScheduleInterval` in `app/models/schedule.py`).
The spec names daily and weekly cadences (section 4.1). -/
inductive ScheduleInterval
  | daily
  | weekly
deriving DecidableEq, Repr

/-- A cron expression of the shape produced by the schedule model:
fire at minute `minute` of hour `hour`, either every day (`dow = none`)
or on one fixed day of the week (`dow = some d`). -/
structure CronExpr where
  minute : Nat
  hour : Nat
  dow : Option Nat
deriving DecidableEq, Repr

/-- The recurrence period of a cron expression, in minutes:
one day for a daily expression, one week for a weekly one. -/
def CronExpr.period (e : CronExpr) : Nat :=
  match e.dow with
  | none => 1440
  | some _ => 10080

/-- Minutes from the start of a period block to the firing time inside it. -/
def CronExpr.offsetInPeriod (e : CronExpr) : Nat :=
  (match e.dow with
   | none => 0
   | some d => d * 1440) + e.hour * 60 + e.minute

/-- Whether minute-timestamp `t` matches the cron expression:
the minute of the hour, the hour of the day and (for weekly expressions)
the day of the week all agree. -/
def CronExpr.timeMatches (e : CronExpr) (t : Nat) : Bool :=
  t % 60 == e.minute && t / 60 % 24 == e.hour &&
    (match e.dow with
     | none => true
     | some d => t / 1440 % 7 == d)

/-- `calculate_next_run` (schedules.py line 60). The source delegates to
`croniter(cron_expr, from_time).get_next(datetime)`, a library call: the
next time matching the expression, strictly after `from_time`. For the
periodic expressions produced here that time is the occurrence inside the
current period block when it still lies ahead, and otherwise the occurrence
in the following block. -/
def calculate_next_run (e : CronExpr) (from_time : Nat) : Nat :=
  if from_time < from_time / e.period * e.period + e.offsetInPeriod then
    from_time / e.period * e.period + e.offsetInPeriod
  else
    from_time / e.period * e.period + e.offsetInPeriod + e.period

lemma CronExpr.period_pos (e : CronExpr) : 0 < e.period := by
  unfold CronExpr.period
  cases e.dow <;> simp

lemma calculate_next_run_lt (e : CronExpr) (t : Nat) : t < calculate_next_run e t := by
  unfold calculate_next_run
  have hp : 0 < e.period := e.period_pos
  have h1 := Nat.div_add_mod' t e.period
  have h2 := Nat.mod_lt t hp
  split <;> omega

/-- A cron expression whose fields are in range. -/
def CronExpr.wellFormed (e : CronExpr) : Prop :=
  e.minute < 60 ∧ e.hour < 24 ∧ ∀ d ∈ e.dow, d < 7

/-- Sanity check on the embedding of `croniter.get_next`: for a well-formed
expression the returned time does match the expression. -/
lemma calculate_next_run_timeMatches (e : CronExpr) (he : e.wellFormed) (t : Nat) :
    e.timeMatches (calculate_next_run e t) = true := by
  obtain ⟨hm, hh, hd⟩ := he
  unfold calculate_next_run CronExpr.timeMatches
  cases hdow : e.dow with
  | none =>
    have hper : e.period = 1440 := by simp [CronExpr.period, hdow]
    have hoff : e.offsetInPeriod = e.hour * 60 + e.minute := by
      simp [CronExpr.offsetInPeriod, hdow]
    rw [hper, hoff]
    simp only [Bool.and_eq_true, beq_iff_eq]
    constructor
    · constructor <;> (split <;> omega)
    · simp
  | some d =>
    have hd7 : d < 7 := hd d (by rw [hdow]; rfl)
    have hper : e.period = 10080 := by simp [CronExpr.period, hdow]
    have hoff : e.offsetInPeriod = d * 1440 + e.hour * 60 + e.minute := by
      simp [CronExpr.offsetInPeriod, hdow]
    rw [hper, hoff]
    simp only [Bool.and_eq_true, beq_iff_eq]
    refine ⟨⟨?_, ?_⟩, ?_⟩ <;> (split <;> omega)

/-- One schedule row (`ScheduleConfig` in `app/models/schedule.py`),
restricted to the fields the verified endpoints read or write. -/
structure Schedule where
  id : Nat
  agent_id : Nat
  interval : ScheduleInterval
  publish_hour : Nat
  is_active : Bool
  auto_publish : Bool
  next_run_at : Option Nat
  last_run_at : Option Nat
  total_posts_generated : Nat
  successful_posts : Nat
  failed_posts : Nat
deriving DecidableEq, Repr

/-- Modelled from the spec: `ScheduleConfig.get_cron_expression` lives in
`app/models/schedule.py`, which is not among the provided sources. Spec
section 4.1: the cron expression is derived deterministically from
`(interval, publish_hour)` — daily runs once per day at the given hour,
weekly runs once per week at the given hour on one fixed day of the week. -/
def Schedule.get_cron_expression (s : Schedule) : CronExpr :=
  match s.interval with
  | .daily => ⟨0, s.publish_hour, none⟩
  | .weekly => ⟨0, s.publish_hour, some 1⟩

/-- Request body for schedule creation (`ScheduleCreate`). -/
structure ScheduleCreate where
  agent_id : Nat
  interval : ScheduleInterval
  publish_hour : Nat
  auto_publish : Bool
  is_active : Bool
deriving DecidableEq, Repr

/-- Core of `create_schedule` (schedules.py lines 101-120), after the
agent-ownership and duplicate checks have passed: the constructed row.
Line 114 computes `next_run_at` unconditionally, whatever `is_active` is. -/
def create_schedule (data : ScheduleCreate) (id now : Nat) : Schedule :=
  let s : Schedule :=
    { id := id
      agent_id := data.agent_id
      interval := data.interval
      publish_hour := data.publish_hour
      is_active := data.is_active
      auto_publish := data.auto_publish
      next_run_at := none
      last_run_at := none
      total_posts_generated := 0
      successful_posts := 0
      failed_posts := 0 }
  { s with next_run_at := some (calculate_next_run s.get_cron_expression now) }

/-- Core of `toggle_schedule` (schedules.py lines 421-427): flip
`is_active`; when now active recompute `next_run_at`, otherwise null it. -/
def toggle_schedule (s : Schedule) (now : Nat) : Schedule :=
  let s1 := { s with is_active := !s.is_active }
  if s1.is_active then
    { s1 with next_run_at := some (calculate_next_run s1.get_cron_expression now) }
  else
    { s1 with next_run_at := none }

/-- The due filter of the bulk trigger query (schedules.py lines 484-489):
`is_active = true AND next_run_at <= now`; a SQL comparison against a null
`next_run_at` selects nothing. -/
def is_due (now : Nat) (s : Schedule) : Bool :=
  s.is_active &&
    (match s.next_run_at with
     | some t => t ≤ now
     | none => false)

/-- Application configuration relevant to the trigger endpoint. -/
structure Config where
  CRON_SECRET : Option String
  JWT_SECRET : String
deriving DecidableEq, Repr

/-- The expected shared secret (schedules.py line 474):
`settings.CRON_SECRET or settings.JWT_SECRET` — Python `or` falls back on a
missing or empty `CRON_SECRET`. -/
def expected_secret (cfg : Config) : String :=
  match cfg.CRON_SECRET with
  | some s => if s = "" then cfg.JWT_SECRET else s
  | none => cfg.JWT_SECRET

/-- One iteration of the bulk trigger loop (schedules.py lines 494-510) for
one row. A due schedule whose recompute-and-commit succeeds gets its
`next_run_at` advanced and its id reported (dispatch and the id list move
together); when any step fails the exception handler leaves the persisted
row unchanged, skips the dispatch, and the loop continues. -/
def advance_due (commit_ok : Nat → Bool) (now : Nat) (s : Schedule) :
    Schedule × Option Nat :=
  if is_due now s then
    if commit_ok s.id then
      ({ s with next_run_at := some (calculate_next_run s.get_cron_expression now) },
        some s.id)
    else (s, none)
  else (s, none)

/-- Result of the trigger endpoint: HTTP status, database state after the
call, the reported `triggered_schedules` ids, and the ids handed to
`background_tasks.add_task`. -/
structure TriggerResult where
  status : Nat
  state : List Schedule
  triggered_schedules : List Nat
  dispatched : List Nat
deriving DecidableEq, Repr

/-- `trigger_due_schedules` (schedules.py lines 456-517): reject a wrong or
missing `X-Cron-Secret` with 403 before touching any row; otherwise advance
every due schedule whose commit succeeds, collect the triggered ids, and
answer 202. -/
def trigger_due_schedules (cfg : Config) (x_cron_secret : Option String)
    (commit_ok : Nat → Bool) (now : Nat) (state : List Schedule) : TriggerResult :=
  if x_cron_secret ≠ some (expected_secret cfg) then
    { status := 403, state := state, triggered_schedules := [], dispatched := [] }
  else
    { status := 202
      state := state.map (fun s => (advance_due commit_ok now s).1)
      triggered_schedules := state.filterMap (fun s => (advance_due commit_ok now s).2)
      dispatched := state.filterMap (fun s => (advance_due commit_ok now s).2) }

/-- Modelled from the spec: `ScheduleConfig.get_interval_display` lives in
`app/models/schedule.py`, which is not among the provided sources. Spec
section 3.4 only requires a human-readable interval string. -/
def interval_display : ScheduleInterval → String
  | .daily => "Daily"
  | .weekly => "Weekly"

/-- Number of character comparisons Python performs to decide
`supplied != expected` on strings: nothing when the lengths differ, and
otherwise one comparison per position up to and including the first
mismatch (schedules.py line 475 uses the plain `!=` operator). -/
def eq_compare_count : List Char → List Char → Nat
  | [], _ => 0
  | _ :: _, [] => 0
  | a :: as, b :: bs => 1 + (if a = b then eq_compare_count as bs else 0)

/-- Comparison cost of the secret check in `trigger_due_schedules`:
the length check is free, the character scan short-circuits. -/
def secret_compare_count (supplied expected : List Char) : Nat :=
  if supplied.length = expected.length then eq_compare_count supplied expected else 0

/-- Length of the common prefix of two character lists. -/
def commonPrefixLen : List Char → List Char → Nat
  | [], _ => 0
  | _ :: _, [] => 0
  | a :: as, b :: bs => if a = b then commonPrefixLen as bs + 1 else 0

/-- Round half to even, Python's rounding mode for `round`. -/
def roundHalfEven (q : ℚ) : ℤ :=
  if q - ⌊q⌋ < 1 / 2 then ⌊q⌋
  else if 1 / 2 < q - ⌊q⌋ then ⌊q⌋ + 1
  else if ⌊q⌋ % 2 = 0 then ⌊q⌋ else ⌊q⌋ + 1

/-- Python `round(x, 2)`. -/
def round2 (q : ℚ) : ℚ := (roundHalfEven (q * 100) : ℚ) / 100

def sum_total (l : List Schedule) : Nat := (l.map Schedule.total_posts_generated).sum

def sum_successful (l : List Schedule) : Nat := (l.map Schedule.successful_posts).sum

def sum_failed (l : List Schedule) : Nat := (l.map Schedule.failed_posts).sum

/-- One entry of the `upcoming_posts` rollup (schedules.py lines 197-202). -/
structure UpcomingPost where
  schedule_id : Nat
  next_run_at : Nat
  agent_name : String
  interval : ScheduleInterval
deriving DecidableEq, Repr

/-- The entries collected by the loop at schedules.py lines 195-202, in
schedule-list order: one per active schedule with a non-null `next_run_at`. -/
def eligible_upcoming (agents : Nat → String) (schedules : List Schedule) :
    List UpcomingPost :=
  schedules.filterMap (fun s =>
    if s.is_active then
      match s.next_run_at with
      | some t => some ⟨s.id, t, agents s.agent_id, s.interval⟩
      | none => none
    else none)

/-- Comparison used by the sort at schedules.py line 204. The source sorts
by the ISO-8601 `next_run_at` string; on `Nat` timestamps that is the
numeric order. Python `list.sort` is stable, as is `List.mergeSort`. -/
def upcomingLE (a b : UpcomingPost) : Bool :=
  decide (a.next_run_at ≤ b.next_run_at)

/-- `upcoming_posts` as returned by the stats endpoint (lines 193-215):
collect, sort ascending by `next_run_at`, keep the first five. -/
def upcoming_posts (agents : Nat → String) (schedules : List Schedule) :
    List UpcomingPost :=
  ((eligible_upcoming agents schedules).mergeSort upcomingLE).take 5

/-- The rollup record built by `get_schedule_stats` (lines 184-216). -/
structure ScheduleStats where
  total_schedules : Nat
  active_schedules : Nat
  total_posts_generated : Nat
  successful_posts : Nat
  failed_posts : Nat
  success_rate : ℚ
  upcoming_posts : List UpcomingPost
deriving DecidableEq, Repr

/-- Core of `get_schedule_stats` (schedules.py lines 184-216) on the
tenant's schedule rows, with `agents` giving each agent's display name. -/
def get_schedule_stats (agents : Nat → String) (schedules : List Schedule) :
    ScheduleStats :=
  let total_generated := sum_total schedules
  let successful := sum_successful schedules
  let rate : ℚ := if 0 < total_generated then (successful : ℚ) / total_generated * 100 else 0
  { total_schedules := schedules.length
    active_schedules := schedules.countP (·.is_active)
    total_posts_generated := total_generated
    successful_posts := successful
    failed_posts := sum_failed schedules
    success_rate := round2 rate
    upcoming_posts := upcoming_posts agents schedules }

/-- One post row (`Post` in `app/models/post.py`), restricted to the fields
the public endpoints read. -/
structure Post where
  id : Nat
  agent_id : Option Nat
  slug : String
  status : String
  published_at : Option Nat
  created_at : Nat
deriving DecidableEq, Repr

/-- The filter of the public list and featured queries (public.py lines
40-44 and 107-110): status is published, and when an `agent_id` query
parameter is given the post belongs to that agent. -/
def post_matches_public (agent_id : Option Nat) (p : Post) : Bool :=
  p.status == "published" &&
    (match agent_id with
     | some a => p.agent_id == some a
     | none => true)

/-- `coalesce(published_at, created_at)`, the ordering key of the public
list and featured queries (public.py lines 52 and 106). -/
def order_key (p : Post) : Nat :=
  match p.published_at with
  | some t => t
  | none => p.created_at

/-- Descending order on the coalesced timestamp. -/
def publicDescLE (a b : Post) : Bool :=
  decide (order_key b ≤ order_key a)

/-- `list_public_posts` (public.py lines 27-65), items only: filter to
published (optionally by agent), order by coalesced timestamp descending,
then apply offset/limit pagination. -/
def list_public_posts (db : List Post) (page page_size : Nat)
    (agent_id : Option Nat) : List Post :=
  ((((db.filter (post_matches_public agent_id)).mergeSort publicDescLE).drop
    ((page - 1) * page_size)).take page_size)

/-- Outcome of the slug lookup: the post, a 404, or the
`scalar_one_or_none` error on several matching rows. -/
inductive SlugResult
  | ok (p : Post)
  | notFound
  | multipleError
deriving DecidableEq, Repr

/-- `get_public_post_by_slug` (public.py lines 68-91): select by slug and
published status; none → 404, exactly one → the post, several → the
`scalar_one_or_none` exception. -/
def get_public_post_by_slug (db : List Post) (slug : String) : SlugResult :=
  match db.filter (fun p => p.slug == slug && p.status == "published") with
  | [] => .notFound
  | [p] => .ok p
  | _ => .multipleError

/-- `get_featured_posts` (public.py lines 94-117): published posts
(optionally by agent), newest first, at most `limit`. -/
def get_featured_posts (db : List Post) (limit : Nat) (agent_id : Option Nat) :
    List Post :=
  ((db.filter (post_matches_public agent_id)).mergeSort publicDescLE).take limit

/-- One entry of the JSON array parsed from the LLM response
(topics.py line 127): a dict whose fields may be absent. -/
structure RawSuggestion where
  topic : Option String
  target_keyword : Option String
  reasoning : Option String
deriving DecidableEq, Repr

/-- A returned suggestion (`TopicSuggestion`, topics.py lines 33-36). -/
structure TopicSuggestion where
  topic : String
  target_keyword : String
  reasoning : String
deriving DecidableEq, Repr

/-- The comprehension at topics.py lines 129-137: keep entries whose
`topic` is present and truthy (non-empty), defaulting the other fields to
the empty string. -/
def parse_suggestions (raw : List RawSuggestion) : List TopicSuggestion :=
  raw.filterMap (fun s =>
    match s.topic with
    | none => none
    | some t =>
      if t = "" then none
      else some ⟨t, s.target_keyword.getD "", s.reasoning.getD ""⟩)

/-- The suggestions list returned by `suggest_topics` on a successfully
parsed response (topics.py lines 139-142): the kept entries, truncated to
`request.count`. -/
def suggest_topics_result (raw : List RawSuggestion) (count : Nat) :
    List TopicSuggestion :=
  (parse_suggestions raw).take count

/-! Theorems. Shared helper lemmas first, then one theorem per claim. -/

lemma advance_due_not_due (ok : Nat → Bool) {now : Nat} {s : Schedule}
    (h : is_due now s = false) : advance_due ok now s = (s, none) := by
  simp [advance_due, h]

lemma advance_due_ok (ok : Nat → Bool) {now : Nat} {s : Schedule}
    (hdue : is_due now s = true) (hok : ok s.id = true) :
    advance_due ok now s =
      ({ s with next_run_at := some (calculate_next_run s.get_cron_expression now) },
        some s.id) := by
  simp [advance_due, hdue, hok]

lemma map_advance_not_due (ok : Nat → Bool) (now : Nat) (l : List Schedule)
    (h : ∀ s ∈ l, is_due now s = false) :
    l.map (fun s => (advance_due ok now s).1) = l := by
  induction l with
  | nil => rfl
  | cons a t ih =>
    simp only [List.map_cons]
    rw [advance_due_not_due ok (h a (by simp))]
    rw [ih (fun s hs => h s (by simp [hs]))]

lemma filterMap_advance_not_due (ok : Nat → Bool) (now : Nat) (l : List Schedule)
    (h : ∀ s ∈ l, is_due now s = false) :
    l.filterMap (fun s => (advance_due ok now s).2) = [] := by
  induction l with
  | nil => rfl
  | cons a t ih =>
    rw [List.filterMap_cons]
    rw [advance_due_not_due ok (h a (by simp))]
    exact ih (fun s hs => h s (by simp [hs]))

lemma is_due_advanced (now : Nat) (s : Schedule) (t : Nat) (ht : now < t) :
    is_due now { s with next_run_at := some t } = false := by
  simp [is_due]
  intro _
  omega

/-- C1: with exactly one due schedule, `trigger_due` moves that schedule's
`next_run_at` strictly past `now`, reports its id exactly once, and an
immediately repeated call at the same time triggers nothing. -/
theorem trigger_due_single_due_once (cfg : Config) (now : Nat)
    (pre post : List Schedule) (s0 : Schedule)
    (hdue : is_due now s0 = true)
    (hpre : ∀ s ∈ pre, is_due now s = false)
    (hpost : ∀ s ∈ post, is_due now s = false) :
    (trigger_due_schedules cfg (some (expected_secret cfg)) (fun _ => true) now
        (pre ++ s0 :: post)).triggered_schedules = [s0.id] ∧
    (∃ t, now < t ∧
      (trigger_due_schedules cfg (some (expected_secret cfg)) (fun _ => true) now
          (pre ++ s0 :: post)).state =
        pre ++ { s0 with next_run_at := some t } :: post) ∧
    (trigger_due_schedules cfg (some (expected_secret cfg)) (fun _ => true) now
        ((trigger_due_schedules cfg (some (expected_secret cfg)) (fun _ => true) now
          (pre ++ s0 :: post)).state)).triggered_schedules = [] := by
  have hsec : ¬ (some (expected_secret cfg) ≠ some (expected_secret cfg)) := by simp
  set t0 := calculate_next_run s0.get_cron_expression now with ht0
  have hlt : now < t0 := calculate_next_run_lt _ _
  have hadv : advance_due (fun _ => true) now s0 =
      ({ s0 with next_run_at := some t0 }, some s0.id) :=
    advance_due_ok _ hdue rfl
  have hstate :
      (trigger_due_schedules cfg (some (expected_secret cfg)) (fun _ => true) now
        (pre ++ s0 :: post)).state =
      pre ++ { s0 with next_run_at := some t0 } :: post := by
    rw [trigger_due_schedules, if_neg hsec]
    simp only [List.map_append, List.map_cons, hadv,
      map_advance_not_due _ _ _ hpre, map_advance_not_due _ _ _ hpost]
  refine ⟨?_, ⟨t0, hlt, hstate⟩, ?_⟩
  · rw [trigger_due_schedules, if_neg hsec]
    simp only [List.filterMap_append, List.filterMap_cons, hadv,
      filterMap_advance_not_due _ _ _ hpre, filterMap_advance_not_due _ _ _ hpost]
    rfl
  · rw [hstate, trigger_due_schedules, if_neg hsec]
    have hnone : ∀ s ∈ pre ++ { s0 with next_run_at := some t0 } :: post,
        is_due now s = false := by
      intro s hs
      rcases List.mem_append.mp hs with h | h
      · exact hpre s h
      · rcases List.mem_cons.mp h with h | h
        · rw [h]; exact is_due_advanced now s0 t0 hlt
        · exact hpost s h
    exact filterMap_advance_not_due _ _ _ hnone

def exCfg : Config := { CRON_SECRET := some "abcd", JWT_SECRET := "jwt" }

def exSched : Schedule :=
  { id := 1
    agent_id := 1
    interval := .daily
    publish_hour := 9
    is_active := true
    auto_publish := false
    next_run_at := some 480
    last_run_at := none
    total_posts_generated := 0
    successful_posts := 0
    failed_posts := 0 }

/-- C1 witness: one concrete schedule due at minute 480 of day zero. -/
theorem trigger_due_single_due_once_witness :
    (trigger_due_schedules exCfg (some (expected_secret exCfg)) (fun _ => true) 480
        ([] ++ exSched :: [])).triggered_schedules = [exSched.id] ∧
    (∃ t, 480 < t ∧
      (trigger_due_schedules exCfg (some (expected_secret exCfg)) (fun _ => true) 480
          ([] ++ exSched :: [])).state =
        [] ++ { exSched with next_run_at := some t } :: []) ∧
    (trigger_due_schedules exCfg (some (expected_secret exCfg)) (fun _ => true) 480
        ((trigger_due_schedules exCfg (some (expected_secret exCfg)) (fun _ => true) 480
          ([] ++ exSched :: [])).state)).triggered_schedules = [] :=
  trigger_due_single_due_once exCfg 480 [] [] exSched (by decide)
    (by simp) (by simp)

def exCreateInactive : ScheduleCreate :=
  { agent_id := 1
    interval := .daily
    publish_hour := 9
    auto_publish := false
    is_active := false }

/-- C2 counterexample: a schedule created with `is_active = false` gets a
non-null `next_run_at` (line 114 runs unconditionally), refuting the
null-iff-inactive invariant on states reachable through `create`. -/
theorem create_inactive_nonnull_next_run :
    (create_schedule exCreateInactive 7 0).is_active = false ∧
    (create_schedule exCreateInactive 7 0).next_run_at = some 540 ∧
    (create_schedule exCreateInactive 7 0).next_run_at ≠ none := by
  refine ⟨rfl, rfl, ?_⟩
  decide

/-- C2 amended: `toggle_schedule` always reestablishes the invariant that
`next_run_at` is null iff the schedule is inactive, but `create_schedule`
computes a non-null `next_run_at` whatever `is_active` is, so a schedule
created inactive violates the invariant. -/
theorem toggle_invariant_create_always_nonnull (s : Schedule) (now : Nat)
    (data : ScheduleCreate) (id now2 : Nat) :
    ((toggle_schedule s now).next_run_at = none ↔
      (toggle_schedule s now).is_active = false) ∧
    (create_schedule data id now2).next_run_at ≠ none := by
  constructor
  · unfold toggle_schedule
    cases h : s.is_active <;> simp [h]
  · unfold create_schedule
    simp

lemma eq_compare_count_of_ne : ∀ (a b : List Char), a.length = b.length → a ≠ b →
    eq_compare_count a b = commonPrefixLen a b + 1
  | [], [], _, hne => absurd rfl hne
  | [], _ :: _, hlen, _ => by simp at hlen
  | _ :: _, [], hlen, _ => by simp at hlen
  | x :: xs, y :: ys, hlen, hne => by
    by_cases hxy : x = y
    · subst hxy
      have h1 : xs.length = ys.length := by simpa using hlen
      have h2 : xs ≠ ys := fun h => hne (by rw [h])
      simp only [eq_compare_count, commonPrefixLen, if_pos rfl,
        eq_compare_count_of_ne xs ys h1 h2]
      omega
    · simp only [eq_compare_count, commonPrefixLen, if_neg hxy]

/-- C3 counterexample: against the configured secret "abcd", deciding the
header comparison costs 1 character comparison when the supplied secret
differs at position 0 and 4 when it differs at position 3 — the cost
depends on where the first difference lies, so the check at schedules.py
line 475 is not constant-time. -/
theorem secret_compare_count_not_constant :
    secret_compare_count "xbcd".toList (expected_secret exCfg).toList = 1 ∧
    secret_compare_count "abcx".toList (expected_secret exCfg).toList = 4 := by
  decide

/-- C3 amended: the secret comparison short-circuits — for equal-length
secrets that differ, the number of character comparisons is one more than
the length of their common prefix, so it reveals the position of the first
difference; it is not constant-time. -/
theorem secret_compare_count_short_circuit (a b : List Char)
    (hlen : a.length = b.length) (hne : a ≠ b) :
    secret_compare_count a b = commonPrefixLen a b + 1 := by
  rw [secret_compare_count, if_pos hlen]
  exact eq_compare_count_of_ne a b hlen hne

/-- C3 amended witness: a secret differing from "abcd" at the last
position costs four comparisons. -/
theorem secret_compare_count_short_circuit_witness :
    secret_compare_count "abcx".toList "abcd".toList =
      commonPrefixLen "abcx".toList "abcd".toList + 1 :=
  secret_compare_count_short_circuit _ _ (by decide) (by decide)

/-- C4: `calculate_next_run` returns a time strictly after `from_time`,
for every cron expression and every from-time. -/
theorem calculate_next_run_strictly_after (e : CronExpr) (t : Nat) :
    t < calculate_next_run e t :=
  calculate_next_run_lt e t

/-- C6: a request whose X-Cron-Secret header does not equal the configured
secret gets 403 and mutates no schedule. -/
theorem trigger_due_wrong_secret_403 (cfg : Config) (supplied : Option String)
    (commit_ok : Nat → Bool) (now : Nat) (state : List Schedule)
    (h : supplied ≠ some (expected_secret cfg)) :
    (trigger_due_schedules cfg supplied commit_ok now state).status = 403 ∧
    (trigger_due_schedules cfg supplied commit_ok now state).state = state := by
  rw [trigger_due_schedules, if_pos h]
  exact ⟨rfl, rfl⟩

/-- C6 witness: the literal header "wrong" against configured secret
"abcd". -/
theorem trigger_due_wrong_secret_403_witness :
    (trigger_due_schedules exCfg (some "wrong") (fun _ => true) 0 [exSched]).status = 403 ∧
    (trigger_due_schedules exCfg (some "wrong") (fun _ => true) 0 [exSched]).state = [exSched] :=
  trigger_due_wrong_secret_403 exCfg (some "wrong") (fun _ => true) 0 [exSched] (by decide)

lemma advance_due_fail (ok : Nat → Bool) {now : Nat} {s : Schedule}
    (hdue : is_due now s = true) (hok : ok s.id = false) :
    advance_due ok now s = (s, none) := by
  simp [advance_due, hdue, hok]

lemma advance_due_snd_eq (ok : Nat → Bool) (now : Nat) (a : Schedule) (x : Nat)
    (h : (advance_due ok now a).2 = some x) : x = a.id ∧ ok a.id = true := by
  unfold advance_due at h
  cases hd : is_due now a with
  | false => rw [hd] at h; simp at h
  | true =>
    rw [hd] at h
    cases hk : ok a.id with
    | false => rw [hk] at h; simp at h
    | true =>
      rw [hk] at h
      simp at h
      exact ⟨h.symm, rfl⟩

/-- C5: a due schedule whose per-row handling fails is skipped — its id is
neither reported nor dispatched and its row is unchanged — while every
other due schedule whose handling succeeds is still triggered; the loop
always runs to completion (the endpoint function is total). -/
theorem trigger_due_failure_isolation (cfg : Config) (commit_ok : Nat → Bool)
    (now : Nat) (state : List Schedule)
    (hnodup : (state.map Schedule.id).Nodup) :
    (trigger_due_schedules cfg (some (expected_secret cfg)) commit_ok now
        state).state.length = state.length ∧
    (∀ s ∈ state, is_due now s = true → commit_ok s.id = false →
      s.id ∉ (trigger_due_schedules cfg (some (expected_secret cfg)) commit_ok now
          state).triggered_schedules ∧
      s.id ∉ (trigger_due_schedules cfg (some (expected_secret cfg)) commit_ok now
          state).dispatched ∧
      s ∈ (trigger_due_schedules cfg (some (expected_secret cfg)) commit_ok now
          state).state) ∧
    (∀ s ∈ state, is_due now s = true → commit_ok s.id = true →
      s.id ∈ (trigger_due_schedules cfg (some (expected_secret cfg)) commit_ok now
          state).triggered_schedules) := by
  have hsec : ¬ (some (expected_secret cfg) ≠ some (expected_secret cfg)) := by simp
  rw [trigger_due_schedules, if_neg hsec]
  have hnotmem : ∀ s ∈ state, is_due now s = true → commit_ok s.id = false →
      s.id ∉ state.filterMap (fun a => (advance_due commit_ok now a).2) := by
    intro s hs _ hok hmem
    rw [List.mem_filterMap] at hmem
    obtain ⟨a, ha, hfa⟩ := hmem
    obtain ⟨hx, hoka⟩ := advance_due_snd_eq commit_ok now a s.id hfa
    have haeq : a = s := List.inj_on_of_nodup_map hnodup ha hs hx.symm
    rw [haeq] at hoka
    rw [hoka] at hok
    cases hok
  refine ⟨by simp, ?_, ?_⟩
  · intro s hs hdue hok
    refine ⟨hnotmem s hs hdue hok, hnotmem s hs hdue hok, ?_⟩
    exact List.mem_map.mpr ⟨s, hs, by rw [advance_due_fail commit_ok hdue hok]⟩
  · intro s hs hdue hok
    exact List.mem_filterMap.mpr ⟨s, hs, by rw [advance_due_ok commit_ok hdue hok]⟩

def exSched2 : Schedule := { exSched with id := 2 }

/-- C5 witness: two due schedules; the commit for id 1 fails, id 2 is
still triggered and the failed row survives unchanged. -/
theorem trigger_due_failure_isolation_witness :
    (exSched.id ∉ (trigger_due_schedules exCfg (some (expected_secret exCfg))
        (fun n => n == 2) 480 [exSched, exSched2]).triggered_schedules ∧
      exSched ∈ (trigger_due_schedules exCfg (some (expected_secret exCfg))
        (fun n => n == 2) 480 [exSched, exSched2]).state) ∧
    exSched2.id ∈ (trigger_due_schedules exCfg (some (expected_secret exCfg))
        (fun n => n == 2) 480 [exSched, exSched2]).triggered_schedules := by
  have h := trigger_due_failure_isolation exCfg (fun n => n == 2) 480
    [exSched, exSched2] (by decide)
  have h1 := h.2.1 exSched (by simp) (by decide) (by decide)
  exact ⟨⟨h1.1, h1.2.2⟩, h.2.2 exSched2 (by simp) (by decide) (by decide)⟩

/-- C7: the aggregated success rate is 0 when no posts were generated (no
division-by-zero fault) and otherwise successful over total times 100,
rounded to two decimals. -/
theorem stats_success_rate_spec (agents : Nat → String) (schedules : List Schedule) :
    (get_schedule_stats agents schedules).success_rate =
      if sum_total schedules = 0 then 0
      else round2 ((sum_successful schedules : ℚ) / (sum_total schedules : ℚ) * 100) := by
  unfold get_schedule_stats
  by_cases h : sum_total schedules = 0
  · simp only [h, Nat.lt_irrefl, if_neg, if_pos]
    norm_num [round2, roundHalfEven]
  · have h2 : 0 < sum_total schedules := Nat.pos_of_ne_zero h
    simp [h, h2]

lemma upcomingLE_trans : ∀ (a b c : UpcomingPost),
    upcomingLE a b → upcomingLE b c → upcomingLE a c := by
  intro a b c hab hbc
  simp only [upcomingLE, decide_eq_true_eq] at *
  omega

lemma upcomingLE_total : ∀ (a b : UpcomingPost), upcomingLE a b || upcomingLE b a := by
  intro a b
  simp only [upcomingLE, Bool.or_eq_true, decide_eq_true_eq]
  omega

lemma eligible_upcoming_mem (agents : Nat → String) (schedules : List Schedule)
    (p : UpcomingPost) (hp : p ∈ eligible_upcoming agents schedules) :
    ∃ s ∈ schedules, s.is_active = true ∧ s.next_run_at = some p.next_run_at ∧
      s.id = p.schedule_id ∧ agents s.agent_id = p.agent_name ∧
      s.interval = p.interval := by
  rw [eligible_upcoming, List.mem_filterMap] at hp
  obtain ⟨s, hs, heq⟩ := hp
  refine ⟨s, hs, ?_⟩
  cases ha : s.is_active with
  | false => rw [ha] at heq; simp at heq
  | true =>
    rw [ha] at heq
    cases hn : s.next_run_at with
    | none => rw [hn] at heq; simp at heq
    | some t =>
      rw [hn] at heq
      simp only [if_pos, Option.some.injEq] at heq
      rw [← heq]
      exact ⟨rfl, rfl, rfl, rfl, rfl⟩

/-- C8 amended: `upcoming_posts` has at most five entries, each drawn from
an active schedule with a non-null `next_run_at`, sorted ascending by
`next_run_at`; on equal timestamps the sort is stable with respect to the
order schedules appear in the retrieved list (the unspecified database
order), not with respect to schedule id. -/
theorem upcoming_posts_spec (agents : Nat → String) (schedules : List Schedule) :
    (upcoming_posts agents schedules).length ≤ 5 ∧
    (∀ p ∈ upcoming_posts agents schedules, ∃ s ∈ schedules,
      s.is_active = true ∧ s.next_run_at = some p.next_run_at ∧
      s.id = p.schedule_id ∧ agents s.agent_id = p.agent_name ∧
      s.interval = p.interval) ∧
    List.Pairwise (fun a b : UpcomingPost => a.next_run_at ≤ b.next_run_at)
      (upcoming_posts agents schedules) ∧
    (∀ a b : UpcomingPost,
      [a, b].Sublist (eligible_upcoming agents schedules) →
      a.next_run_at = b.next_run_at →
      [a, b].Sublist ((eligible_upcoming agents schedules).mergeSort upcomingLE)) := by
  refine ⟨?_, ?_, ?_, ?_⟩
  · rw [upcoming_posts, List.length_take]
    exact Nat.min_le_left _ _
  · intro p hp
    rw [upcoming_posts] at hp
    have hp2 : p ∈ (eligible_upcoming agents schedules).mergeSort upcomingLE :=
      List.mem_of_mem_take hp
    rw [List.mem_mergeSort] at hp2
    exact eligible_upcoming_mem agents schedules p hp2
  · have hsorted : List.Pairwise (fun a b : UpcomingPost => upcomingLE a b)
        ((eligible_upcoming agents schedules).mergeSort upcomingLE) :=
      List.sorted_mergeSort upcomingLE_trans upcomingLE_total _
    have himp : List.Pairwise (fun a b : UpcomingPost => a.next_run_at ≤ b.next_run_at)
        ((eligible_upcoming agents schedules).mergeSort upcomingLE) := by
      refine hsorted.imp ?_
      intro a b h
      simpa [upcomingLE] using h
    exact List.Pairwise.sublist (List.take_sublist _ _) himp
  · intro a b hsub hteq
    have hab : upcomingLE a b := by
      simp [upcomingLE, hteq]
    exact List.pair_sublist_mergeSort upcomingLE_trans upcomingLE_total hab hsub

def exTieA : Schedule := { exSched with id := 2, next_run_at := some 500 }

def exTieB : Schedule := { exSched with id := 1, next_run_at := some 500 }

/-- C8 counterexample: two active schedules share `next_run_at = 500` and
appear in the list as id 2 before id 1; the rollup keeps them in that
order, so ties are not broken by schedule id. -/
theorem upcoming_posts_tie_not_by_id :
    (upcoming_posts (fun _ => "A") [exTieA, exTieB]).map UpcomingPost.schedule_id
        = [2, 1] ∧
    ¬ List.Pairwise (fun a b : UpcomingPost =>
        a.next_run_at < b.next_run_at ∨
          (a.next_run_at = b.next_run_at ∧ a.schedule_id < b.schedule_id))
      (upcoming_posts (fun _ => "A") [exTieA, exTieB]) := by
  have he : eligible_upcoming (fun _ => "A") [exTieA, exTieB] =
      [⟨2, 500, "A", .daily⟩, ⟨1, 500, "A", .daily⟩] := rfl
  have hu : upcoming_posts (fun _ => "A") [exTieA, exTieB] =
      [⟨2, 500, "A", .daily⟩, ⟨1, 500, "A", .daily⟩] := by
    rw [upcoming_posts, he, List.mergeSort_of_sorted (by decide)]
    rfl
  rw [hu]
  exact ⟨rfl, by decide⟩

/-- C8 amended witness: the concrete tie instance from the counterexample
satisfies the amended bound and ordering clauses. -/
theorem upcoming_posts_spec_witness :
    (upcoming_posts (fun _ => "A") [exTieA, exTieB]).length ≤ 5 ∧
    List.Pairwise (fun a b : UpcomingPost => a.next_run_at ≤ b.next_run_at)
      (upcoming_posts (fun _ => "A") [exTieA, exTieB]) :=
  ⟨(upcoming_posts_spec (fun _ => "A") [exTieA, exTieB]).1,
    (upcoming_posts_spec (fun _ => "A") [exTieA, exTieB]).2.2.1⟩

lemma mem_public_filter {aid : Option Nat} {p : Post} {db : List Post}
    (h : p ∈ db.filter (post_matches_public aid)) : p.status = "published" := by
  rw [List.mem_filter] at h
  have h2 := h.2
  simp only [post_matches_public.eq_def, Bool.and_eq_true, beq_iff_eq] at h2
  exact h2.1

/-- C9: the three public endpoints expose only published posts, for every
database state and every combination of query parameters; when no
published post carries the requested slug (in particular when the slug
belongs only to a non-published post) the slug lookup answers 404. -/
theorem public_endpoints_only_published (db : List Post) (page page_size limit : Nat)
    (aid : Option Nat) (slug : String) :
    (∀ p ∈ list_public_posts db page page_size aid, p.status = "published") ∧
    (∀ p ∈ get_featured_posts db limit aid, p.status = "published") ∧
    (∀ p, get_public_post_by_slug db slug = .ok p → p.status = "published") ∧
    ((∀ p ∈ db, p.slug = slug → p.status ≠ "published") →
      get_public_post_by_slug db slug = .notFound) := by
  refine ⟨?_, ?_, ?_, ?_⟩
  · intro p hp
    rw [list_public_posts] at hp
    have h1 : p ∈ ((db.filter (post_matches_public aid)).mergeSort publicDescLE).drop
        ((page - 1) * page_size) := List.mem_of_mem_take hp
    have h2 : p ∈ (db.filter (post_matches_public aid)).mergeSort publicDescLE :=
      List.drop_subset _ _ h1
    rw [List.mem_mergeSort] at h2
    exact mem_public_filter h2
  · intro p hp
    rw [get_featured_posts] at hp
    have h2 : p ∈ (db.filter (post_matches_public aid)).mergeSort publicDescLE :=
      List.mem_of_mem_take hp
    rw [List.mem_mergeSort] at h2
    exact mem_public_filter h2
  · intro p hp
    rw [get_public_post_by_slug] at hp
    cases hf : db.filter (fun q => q.slug == slug && q.status == "published") with
    | nil => rw [hf] at hp; cases hp
    | cons q t =>
      cases t with
      | nil =>
        rw [hf] at hp
        have hqmem : q ∈ db.filter (fun q2 => q2.slug == slug && q2.status == "published") := by
          rw [hf]
          exact List.mem_cons_self q []
        rw [List.mem_filter, Bool.and_eq_true, beq_iff_eq, beq_iff_eq] at hqmem
        have hqp : q = p := by
          change SlugResult.ok q = SlugResult.ok p at hp
          cases hp
          rfl
        rw [← hqp]
        exact hqmem.2.2
      | cons q2 t2 => rw [hf] at hp; cases hp
  · intro hall
    rw [get_public_post_by_slug]
    have hf : db.filter (fun q => q.slug == slug && q.status == "published") = [] := by
      rw [List.filter_eq_nil_iff]
      intro q hq
      rw [Bool.and_eq_true, beq_iff_eq, beq_iff_eq, not_and]
      exact hall q hq
    rw [hf]

def exPub : Post :=
  { id := 1, agent_id := some 1, slug := "hello", status := "published",
    published_at := some 10, created_at := 5 }

def exDraft : Post :=
  { id := 2, agent_id := some 1, slug := "work-in-progress", status := "draft",
    published_at := none, created_at := 6 }

/-- C9 witness: looking up the slug of the draft post yields 404. -/
theorem public_endpoints_only_published_witness :
    get_public_post_by_slug [exPub, exDraft] "work-in-progress" = .notFound :=
  (public_endpoints_only_published [exPub, exDraft] 1 20 3 none
    "work-in-progress").2.2.2 (by decide)

/-- C10: on a successfully parsed response, at most `count` suggestions
come back, every one of them carries a non-empty topic taken from some
parsed entry, and entries with a missing or empty topic are dropped. -/
theorem suggest_topics_result_spec (raw : List RawSuggestion) (count : Nat)
    (h1 : 1 ≤ count) (h2 : count ≤ 10) :
    (suggest_topics_result raw count).length ≤ count ∧
    (∀ s ∈ suggest_topics_result raw count, s.topic ≠ "" ∧
      ∃ r ∈ raw, r.topic = some s.topic) := by
  constructor
  · rw [suggest_topics_result, List.length_take]
    exact Nat.min_le_left _ _
  · intro s hs
    have hs2 : s ∈ parse_suggestions raw := List.mem_of_mem_take hs
    rw [parse_suggestions, List.mem_filterMap] at hs2
    obtain ⟨r, hr, heq⟩ := hs2
    cases ht : r.topic with
    | none => rw [ht] at heq; simp at heq
    | some t =>
      simp only [ht] at heq
      by_cases htt : t = ""
      · rw [if_pos htt] at heq; simp at heq
      · rw [if_neg htt] at heq
        rw [Option.some.injEq] at heq
        rw [← heq]
        exact ⟨htt, r, hr, by rw [ht]⟩

def exRaw : List RawSuggestion :=
  [ { topic := some "Customer retention", target_keyword := some "retention",
      reasoning := some "high volume" },
    { topic := some "", target_keyword := none, reasoning := none },
    { topic := none, target_keyword := some "other", reasoning := none } ]

/-- C10 witness: three parsed entries, one valid topic, count 2. -/
theorem suggest_topics_result_spec_witness :
    (suggest_topics_result exRaw 2).length ≤ 2 ∧
    (∀ s ∈ suggest_topics_result exRaw 2, s.topic ≠ "" ∧
      ∃ r ∈ exRaw, r.topic = some s.topic) :=
  suggest_topics_result_spec exRaw 2 (by decide) (by decide)

end AutoBlog
